import Mathlib

set_option maxHeartbeats 1000000

set_option linter.unusedVariables false

/-!
Verification of the trajtracker movement-validation core: a shallow
embedding of `SpeedMonitor` (movement/_SpeedMonitor.py),
`InstantaneousSpeedValidator` (validators/_InstantaneousSpeedValidator.py),
`MoveByGradientValidator` (validators/_MoveByGradientValidator.py) and the
touch-detection part of `NumberLine` (stimuli/_NumberLine.py), together with
theorems about the specified behaviour.

Modelling conventions: Python numbers are embedded as exact rationals
(`ℚ`); the Euclidean distances computed with `np.sqrt` are embedded as real
numbers (`ℝ`, via `Real.sqrt`).  Fallible Python code (functions that can
raise) returns `Except PyErr`.  The argument-type assertions of the
`_utils` helpers (`validate_func_arg_type` etc.) are no-ops here because
the embedding is typed: every argument is numeric by construction.
-/

/-- The Python exception classes that the embedded code can raise. -/
inductive PyErr where
  | invalidState   -- trajtracker.InvalidStateError
  | typeError      -- TypeError (wrong number / type of arguments)
  | valueError     -- trajtracker.ValueError (attribute validation)
  | zeroDivision   -- ZeroDivisionError
  | indexError     -- IndexError (recent_points[-1] on an empty list)
  deriving Repr, DecidableEq

/-- A validation verdict: validators return `None` (pass) or an
`ExperimentError` object built by `create_experiment_error` carrying an
error code, a message and named numeric arguments. -/
inductive Verdict where
  | pass
  | fail (err_code : String) (message : String) (args : List (String × ℝ))

/-- `ValidationAxis` enumeration from `validators/__init__.py`. -/
inductive ValidationAxis where
  | x
  | y
  | xy
  deriving Repr, DecidableEq

/-! ## MoveByGradientValidator (validators/_MoveByGradientValidator.py) -/

/-- `MoveByGradientValidator`.  The reference image (`LocationColorMap`) is
embedded as the lookup function `get_color_at` (the mapped scalar color at
a pixel, or `none` outside the image's known area or for pixels rejected
by the `single_color` filter), plus `available_colors`, the list of mapped
colors of the image from which `_calc_min_max_colors` derives
`_min_available_color` / `_max_available_color` (both are recomputed
together from this list, so one is `none` exactly when the other is). -/
structure MoveByGradientValidator where
  get_color_at : ℤ → ℤ → Option ℚ
  available_colors : List ℚ
  rgb_should_ascend : Bool
  max_valid_back_movement : ℚ
  cyclic : Bool
  enabled : Bool
  last_color : Option ℚ

/-- Class constant `MoveByGradientValidator.cyclic_ratio = 5`. -/
def cyclic_ratio : ℚ := 5

/-- `_min_available_color` as computed by `_calc_min_max_colors`:
`None` if no color is available, otherwise the minimum. -/
def MoveByGradientValidator.min_available_color (v : MoveByGradientValidator) : Option ℚ :=
  v.available_colors.min?

/-- `_max_available_color` as computed by `_calc_min_max_colors`. -/
def MoveByGradientValidator.max_available_color (v : MoveByGradientValidator) : Option ℚ :=
  v.available_colors.max?

/-- The `GradientViolation` failure built at the end of
`MoveByGradientValidator.update_xyt`. -/
def gradientViolation : Verdict :=
  Verdict.fail "GradientViolation" "You moved in an invalid direction" []

/-- `MoveByGradientValidator.update_xyt` (lines 190-235): returns the
updated validator state together with the verdict. -/
def MoveByGradientValidator.update_xyt (v : MoveByGradientValidator)
    (x_coord y_coord : ℤ) : MoveByGradientValidator × Verdict :=
  if v.enabled = false then (v, Verdict.pass)
  else
    match v.get_color_at x_coord y_coord with
    | none =>
      -- color N/A -- can't validate
      ({ v with last_color := none }, Verdict.pass)
    | some color =>
      match v.last_color with
      | none =>
        -- Nothing to validate
        ({ v with last_color := some color }, Verdict.pass)
      | some last =>
        let expected_direction : ℚ := if v.rgb_should_ascend then 1 else -1
        let rgb_delta := (color - last) * expected_direction
        if rgb_delta ≥ 0 then
          ({ v with last_color := some color }, Verdict.pass)
        else if rgb_delta ≥ -v.max_valid_back_movement then
          -- opposite direction, but only slightly: no error, keep last_color
          (v, Verdict.pass)
        else if v.cyclic && v.min_available_color.isSome then
          let range := v.max_available_color.getD 0 - v.min_available_color.getD 0
          if |rgb_delta| ≥ cyclic_ratio * (range - |rgb_delta|) then
            ({ v with last_color := some color }, Verdict.pass)
          else
            (v, gradientViolation)
        else
          (v, gradientViolation)

/-- The color range `_max_available_color - _min_available_color` used by
the cyclic-wraparound branch. -/
def MoveByGradientValidator.color_range (v : MoveByGradientValidator) : ℚ :=
  v.max_available_color.getD 0 - v.min_available_color.getD 0

/-- A concrete gradient validator over a 0-255 color range: the image
reports color `curc` everywhere, the remembered last color is `lastc`,
ascending direction, `cyclic = true`. -/
def gradExample (mvbm lastc curc : ℚ) : MoveByGradientValidator :=
  { get_color_at := fun _ _ => some curc
  , available_colors := [0, 255]
  , rgb_should_ascend := true
  , max_valid_back_movement := mvbm
  , cyclic := true
  , enabled := true
  , last_color := some lastc }

/-! ## NumberLine touch detection (stimuli/_NumberLine.py) -/

/-- `NumberLine.Orientation` enumeration. -/
inductive NLOrientation where
  | horizontal
  | vertical
  deriving Repr, DecidableEq

/-- The touch-detection part of `NumberLine`: configuration plus the
per-trial state fields set by `reset` (`_last_mouse_coord` is set by
`reset` but never read by `update_xyt`). -/
structure NumberLine where
  orientation : NLOrientation
  mid_x : ℚ
  mid_y : ℚ
  line_length : ℚ
  touch_distance : ℚ
  touch_directioned : Bool
  last_mouse_coord : Option ℚ
  last_touched_coord : Option ℚ
  initial_mouse_dir : Option ℚ

/-- `np.sign` on rationals. -/
def npSign (q : ℚ) : ℚ :=
  if 0 < q then 1 else if q < 0 then -1 else 0

/-- `NumberLine._main_line_start` (lines 323-327). -/
def NumberLine.main_line_start (nl : NumberLine) : ℚ × ℚ :=
  match nl.orientation with
  | .horizontal => (-nl.line_length / 2, 0)
  | .vertical => (0, -nl.line_length / 2)

/-- `NumberLine.reset` (lines 343-353). -/
def NumberLine.reset (nl : NumberLine) : NumberLine :=
  { nl with last_mouse_coord := none, last_touched_coord := none,
            initial_mouse_dir := none }

/-- The `mouse_coord` local of `update_xyt`: the coordinate on the axis
perpendicular to the line. -/
def NumberLine.mouse_coord (nl : NumberLine) (x_coord y_coord : ℤ) : ℚ :=
  match nl.orientation with
  | .horizontal => (y_coord : ℚ)
  | .vertical => (x_coord : ℚ)

/-- The `line_coord` local of `update_xyt`. -/
def NumberLine.line_coord (nl : NumberLine) : ℚ :=
  match nl.orientation with
  | .horizontal => nl.main_line_start.2 + nl.mid_y
  | .vertical => nl.main_line_start.1 + nl.mid_x

/-- The `touch_coord` local of `update_xyt`: the coordinate along the
line, relative to its middle. -/
def NumberLine.touch_coord (nl : NumberLine) (x_coord y_coord : ℤ) : ℚ :=
  match nl.orientation with
  | .horizontal => (x_coord : ℚ) - nl.mid_x
  | .vertical => (y_coord : ℚ) - nl.mid_y

/-- The `distance` local of `update_xyt`: positive when the mouse
coordinate is smaller than the line coordinate. -/
def NumberLine.distance (nl : NumberLine) (x_coord y_coord : ℤ) : ℚ :=
  nl.line_coord - nl.mouse_coord x_coord y_coord

/-- `NumberLine.touched` property. -/
def NumberLine.touched (nl : NumberLine) : Bool :=
  nl.last_touched_coord.isSome

/-- `NumberLine.update_xyt` (lines 358-421).  Once the line has been
touched the call returns immediately; on the first directioned sample the
approach direction is recorded; afterwards a touch is declared when the
distance, flipped by the approach sign, is below `touch_distance`. -/
def NumberLine.update_xyt (nl : NumberLine) (x_coord y_coord : ℤ) : NumberLine :=
  if nl.last_touched_coord.isSome then nl
  else
    let distance := nl.distance x_coord y_coord
    let step :=
      if nl.touch_directioned = false then
        (nl, decide (|distance| ≤ nl.touch_distance))
      else
        match nl.initial_mouse_dir with
        | none => ({ nl with initial_mouse_dir := some (npSign distance) }, false)
        | some dir => (nl, decide (distance * dir < nl.touch_distance))
    if step.2 then
      { step.1 with last_touched_coord := some (nl.touch_coord x_coord y_coord) }
    else
      step.1

/-- A concrete horizontal number line centered at the origin with
directional locking and a positive touch distance, in its reset state. -/
def nlExample : NumberLine :=
  { orientation := .horizontal, mid_x := 0, mid_y := 0, line_length := 100,
    touch_distance := 2, touch_directioned := true,
    last_mouse_coord := none, last_touched_coord := none,
    initial_mouse_dir := none }

/-! ## SpeedMonitor (movement/_SpeedMonitor.py) -/

/-- One entry of `_recent_points`: `(x, y, time, distance)`, where
`distance` is the Euclidean distance (in mm) from the previous sample. -/
structure Sample where
  x : ℚ
  y : ℚ
  t : ℚ
  dist : ℝ

/-- The `np.sqrt((x2-x1)**2 + (y2-y1)**2)` distance computation of
`SpeedMonitor.update_xyt`. -/
noncomputable def dist2 (x1 y1 x2 y2 : ℚ) : ℝ :=
  Real.sqrt (((x2 - x1 : ℚ) : ℝ) ^ 2 + ((y2 - y1 : ℚ) : ℝ) ^ 2)

/-- The `SpeedMonitor` state. -/
structure SpeedMonitor where
  units_per_mm : ℚ
  calculation_interval : ℚ
  recent_points : List Sample
  pre_recent_point : Option Sample
  time0 : Option ℚ

/-- `SpeedMonitor.reset` (lines 47-61). -/
def SpeedMonitor.reset (m : SpeedMonitor) (time : Option ℚ) : SpeedMonitor :=
  { m with recent_points := [], pre_recent_point := none, time0 := time }

/-- The `prev_time` local of `_validate_time`: the last pushed sample's
time, or `_time0` when no sample exists. -/
def SpeedMonitor.prev_time (m : SpeedMonitor) : Option ℚ :=
  match m.recent_points.getLast? with
  | some p => some p.t
  | none => m.time0

/-- `SpeedMonitor._validate_time` (lines 101-106): raises
`InvalidStateError` when times are not provided in increasing order. -/
def SpeedMonitor.validate_time (m : SpeedMonitor) (time : ℚ) : Except PyErr Unit :=
  match m.prev_time with
  | some prev => if prev > time then Except.error PyErr.invalidState else Except.ok ()
  | none => Except.ok ()

/-- `SpeedMonitor._remove_recent_points_older_than` (lines 113-119):
`np.where` finds the indices of all samples with `t ≤ latest_good_time`;
if any exist, the sample at the last such index is remembered as
`_pre_recent_point` and everything up to that index is dropped. -/
def SpeedMonitor.remove_recent_points_older_than (m : SpeedMonitor)
    (latest_good_time : ℚ) : SpeedMonitor :=
  match (m.recent_points.enum.filter
      fun ip => decide (ip.2.t ≤ latest_good_time)).getLast? with
  | none => m
  | some (k, p) =>
    { m with pre_recent_point := some p,
             recent_points := m.recent_points.drop (k + 1) }

/-- The distance computation of `update_xyt` (lines 88-92): the Euclidean
distance from the last retained sample to the newly pushed (rescaled)
coordinates, or 0 when there is no previous sample. -/
noncomputable def SpeedMonitor.pushDist (m : SpeedMonitor) (x_coord y_coord : ℚ) : ℝ :=
  match m.recent_points.getLast? with
  | some last_loc =>
    dist2 last_loc.x last_loc.y (x_coord / m.units_per_mm) (y_coord / m.units_per_mm)
  | none => 0

/-- The mutation body of `SpeedMonitor.update_xyt` (lines 80-97), run after
`_validate_time` has passed: set `_time0` on the first call, rescale the
coordinates, compute the distance from the previous sample, evict old
samples, then append the new sample. -/
noncomputable def SpeedMonitor.push_sample (m : SpeedMonitor) (x_coord y_coord time : ℚ) :
    SpeedMonitor :=
  let time0' := match m.time0 with
    | none => some time
    | some t0 => some t0
  let m1 := SpeedMonitor.remove_recent_points_older_than
    { m with time0 := time0' } (time - m.calculation_interval)
  { m1 with recent_points := m1.recent_points ++
      [⟨x_coord / m.units_per_mm, y_coord / m.units_per_mm, time,
        m.pushDist x_coord y_coord⟩] }

/-- `SpeedMonitor.update_xyt` (lines 66-97): validate the time (raising
`InvalidStateError` on out-of-order times, before any mutation), then run
the mutation body. -/
noncomputable def SpeedMonitor.update_xyt (m : SpeedMonitor) (x_coord y_coord time : ℚ) :
    Except PyErr SpeedMonitor :=
  match m.validate_time time with
  | Except.error e => Except.error e
  | Except.ok _ => Except.ok (m.push_sample x_coord y_coord time)

/-- The Python call semantics of `update_xyt` on a monitor object: the
`InvalidStateError` raise happens in `_validate_time`, before any
mutation, so on an exception the monitor state is unchanged. -/
noncomputable def SpeedMonitor.update_xyt_call (m : SpeedMonitor) (x y t : ℚ) :
    SpeedMonitor × Option PyErr :=
  match m.update_xyt x y t with
  | Except.error e => (m, some e)
  | Except.ok m2 => (m2, none)

/-- `SpeedMonitor.time_in_trial` (lines 127-134). -/
def SpeedMonitor.time_in_trial (m : SpeedMonitor) : Option ℚ :=
  match m.time0, m.recent_points.getLast? with
  | some t0, some p => some (p.t - t0)
  | _, _ => none

/-- `SpeedMonitor.last_calculation_interval` (lines 178-185): `None`
before the first eviction, otherwise the time between the retained
pre-window sample and the newest sample. -/
def SpeedMonitor.last_calculation_interval (m : SpeedMonitor) : Except PyErr (Option ℚ) :=
  match m.pre_recent_point with
  | none => Except.ok none
  | some p =>
    match m.recent_points.getLast? with
    | none => Except.error PyErr.indexError
    | some q => Except.ok (some (q.t - p.t))

/-- `SpeedMonitor.xspeed` (lines 138-147): the signed x-delta between the
pre-window sample and the newest sample, divided by
`last_calculation_interval` (a zero interval raises `ZeroDivisionError`,
as Python division does). -/
def SpeedMonitor.xspeed (m : SpeedMonitor) : Except PyErr (Option ℚ) :=
  match m.pre_recent_point with
  | none => Except.ok none
  | some p =>
    match m.recent_points.getLast? with
    | none => Except.error PyErr.indexError
    | some q =>
      match m.last_calculation_interval with
      | Except.error e => Except.error e
      | Except.ok none => Except.error PyErr.typeError
      | Except.ok (some interval) =>
        if interval = 0 then Except.error PyErr.zeroDivision
        else Except.ok (some ((q.x - p.x) / interval))

/-- `SpeedMonitor.yspeed` (lines 151-160). -/
def SpeedMonitor.yspeed (m : SpeedMonitor) : Except PyErr (Option ℚ) :=
  match m.pre_recent_point with
  | none => Except.ok none
  | some p =>
    match m.recent_points.getLast? with
    | none => Except.error PyErr.indexError
    | some q =>
      match m.last_calculation_interval with
      | Except.error e => Except.error e
      | Except.ok none => Except.error PyErr.typeError
      | Except.ok (some interval) =>
        if interval = 0 then Except.error PyErr.zeroDivision
        else Except.ok (some ((q.y - p.y) / interval))

/-- `SpeedMonitor.xyspeed` (lines 164-174): the summed per-step path
length over all retained samples, divided by `last_calculation_interval`. -/
noncomputable def SpeedMonitor.xyspeed (m : SpeedMonitor) : Except PyErr (Option ℝ) :=
  match m.pre_recent_point with
  | none => Except.ok none
  | some _ =>
    let distance : ℝ := (m.recent_points.map Sample.dist).sum
    match m.last_calculation_interval with
    | Except.error e => Except.error e
    | Except.ok none => Except.error PyErr.typeError
    | Except.ok (some interval) =>
      if interval = 0 then Except.error PyErr.zeroDivision
      else Except.ok (some (distance / (interval : ℝ)))

/-- The samples evicted by one `update_xyt` call at time `time`: the
prefix of `_recent_points` removed by
`_remove_recent_points_older_than(time - calculation_interval)`. -/
def SpeedMonitor.evicted_by (m : SpeedMonitor) (time : ℚ) : List Sample :=
  match (m.recent_points.enum.filter
      fun ip => decide (ip.2.t ≤ time - m.calculation_interval)).getLast? with
  | none => []
  | some (k, _) => m.recent_points.take (k + 1)

/-- Fold `update_xyt` over a list of `(x, y, t)` inputs. -/
noncomputable def SpeedMonitor.run :
    SpeedMonitor → List (ℚ × ℚ × ℚ) → Except PyErr SpeedMonitor
  | m, [] => Except.ok m
  | m, (x, y, t) :: rest =>
    match m.update_xyt x y t with
    | Except.error e => Except.error e
    | Except.ok m2 => m2.run rest

/-- Fold `update_xyt` over inputs while also accumulating (in eviction
order) every sample ever evicted from the window. -/
noncomputable def SpeedMonitor.runEvicted :
    SpeedMonitor → List Sample → List (ℚ × ℚ × ℚ) →
      Except PyErr (SpeedMonitor × List Sample)
  | m, ev, [] => Except.ok (m, ev)
  | m, ev, (x, y, t) :: rest =>
    match m.update_xyt x y t with
    | Except.error e => Except.error e
    | Except.ok m2 => m2.runEvicted (ev ++ m.evicted_by t) rest

/-- A freshly constructed monitor: `__init__` stores the two configuration
attributes and calls `reset()` (so `_recent_points = []`,
`_pre_recent_point = None`, `_time0 = None`). -/
def freshMonitor (units_per_mm calculation_interval : ℚ) (t0 : Option ℚ) : SpeedMonitor :=
  { units_per_mm := units_per_mm, calculation_interval := calculation_interval,
    recent_points := [], pre_recent_point := none, time0 := t0 }

/-- The Python call protocol of `SpeedMonitor.__init__` (lines 25-37): it
declares exactly two required positional parameters (`units_per_mm`,
`calculation_interval`); a call with any other number of positional
arguments raises `TypeError` before the body runs.  The body validates
`units_per_mm` positive and `calculation_interval` non-negative. -/
def SpeedMonitor.initCall (args : List ℚ) : Except PyErr SpeedMonitor :=
  match args with
  | [units_per_mm, calculation_interval] =>
    if units_per_mm ≤ 0 then Except.error PyErr.valueError
    else if calculation_interval < 0 then Except.error PyErr.valueError
    else Except.ok (freshMonitor units_per_mm calculation_interval none)
  | _ => Except.error PyErr.typeError

/-! ## InstantaneousSpeedValidator (validators/_InstantaneousSpeedValidator.py) -/

/-- The `InstantaneousSpeedValidator` state. -/
structure InstantaneousSpeedValidator where
  enabled : Bool
  axis : ValidationAxis
  min_speed : Option ℚ
  max_speed : Option ℚ
  grace_period : ℚ
  speed_monitor : SpeedMonitor

/-- `InstantaneousSpeedValidator.__init__` (lines 29-58).  When no
`movement_monitor` is supplied it calls `SpeedMonitor(calculation_interval)`
with a single positional argument.  The property setters validate
`min_speed`/`max_speed` positive when given, and `grace_period` and
`calculation_interval` non-negative. -/
def InstantaneousSpeedValidator.init (axis : ValidationAxis) (enabled : Bool)
    (min_speed max_speed : Option ℚ) (grace_period calculation_interval : ℚ)
    (movement_monitor : Option SpeedMonitor) :
    Except PyErr InstantaneousSpeedValidator :=
  match (match movement_monitor with
         | none => SpeedMonitor.initCall [calculation_interval]
         | some mm => Except.ok mm) with
  | Except.error e => Except.error e
  | Except.ok sm =>
    if (match min_speed with | some v => decide (v ≤ 0) | none => false) then
      Except.error PyErr.valueError
    else if (match max_speed with | some v => decide (v ≤ 0) | none => false) then
      Except.error PyErr.valueError
    else if grace_period < 0 then Except.error PyErr.valueError
    else if calculation_interval < 0 then Except.error PyErr.valueError
    else Except.ok
      { enabled := enabled, axis := axis, min_speed := min_speed,
        max_speed := max_speed, grace_period := grace_period,
        speed_monitor :=
          ({ sm with calculation_interval := calculation_interval }).reset none }

/-- `InstantaneousSpeedValidator.update_xyt` (lines 80-121): push the
sample into the monitor; once `time_in_trial` exceeds the grace period and
`last_calculation_interval` is available, compare the axis-selected speed
against the optional bounds. -/
noncomputable def InstantaneousSpeedValidator.update_xyt
    (v : InstantaneousSpeedValidator) (x_coord y_coord time_in_trial : ℚ) :
    Except PyErr (InstantaneousSpeedValidator × Verdict) :=
  if v.enabled = false then Except.ok (v, Verdict.pass)
  else
    match v.speed_monitor.update_xyt x_coord y_coord time_in_trial with
    | Except.error e => Except.error e
    | Except.ok sm =>
      let v2 := { v with speed_monitor := sm }
      match sm.time_in_trial with
      | none => Except.ok (v2, Verdict.pass)
      | some tit =>
        if tit > v.grace_period then
          match sm.last_calculation_interval with
          | Except.error e => Except.error e
          | Except.ok none => Except.ok (v2, Verdict.pass)
          | Except.ok (some _) =>
            match (match v.axis with
                   | ValidationAxis.x => sm.xspeed.map (fun o => o.map (fun q => (q : ℝ)))
                   | ValidationAxis.y => sm.yspeed.map (fun o => o.map (fun q => (q : ℝ)))
                   | ValidationAxis.xy => sm.xyspeed) with
            | Except.error e => Except.error e
            | Except.ok none => Except.error PyErr.typeError
            | Except.ok (some speed) =>
              if (match v.min_speed with
                  | some ms => decide (speed < (ms : ℝ))
                  | none => false) then
                Except.ok (v2,
                  Verdict.fail "TooSlowInstantaneous" "You moved too slowly"
                    [("speed", speed)])
              else if (match v.max_speed with
                  | some ms => decide (speed > (ms : ℝ))
                  | none => false) then
                Except.ok (v2,
                  Verdict.fail "TooFast" "You moved too fast" [("speed", speed)])
              else Except.ok (v2, Verdict.pass)
        else Except.ok (v2, Verdict.pass)

/-- Fold the validator's `update_xyt` over inputs, collecting verdicts. -/
noncomputable def InstantaneousSpeedValidator.run :
    InstantaneousSpeedValidator → List (ℚ × ℚ × ℚ) →
      Except PyErr (InstantaneousSpeedValidator × List Verdict)
  | v, [] => Except.ok (v, [])
  | v, (x, y, t) :: rest =>
    match v.update_xyt x y t with
    | Except.error e => Except.error e
    | Except.ok (v2, verdict) =>
      match v2.run rest with
      | Except.error e => Except.error e
      | Except.ok (v3, verdicts) => Except.ok (v3, verdict :: verdicts)

/-! ## Window invariants -/

/-- A list of samples is ordered by non-decreasing time. -/
def timeSorted (l : List Sample) : Prop :=
  l.Pairwise (fun a b => a.t ≤ b.t)

/-- The stored distance of `b` is the distance from `a` to `b`. -/
def distRel (a b : Sample) : Prop :=
  b.dist = dist2 a.x a.y b.x b.y

/-- The retained samples form a distance chain starting from the
pre-window sample when there is one; otherwise the first retained sample,
if any, is the first sample ever pushed and has distance 0. -/
def extChain : Option Sample → List Sample → Prop
  | _, [] => True
  | none, q :: rest => q.dist = 0 ∧ List.Chain' distRel (q :: rest)
  | some p, q :: rest => List.Chain distRel p (q :: rest)

/-- The invariant tying a monitor state to the list `ev` of all samples
evicted so far, in eviction order. -/
structure MonitorInv (m : SpeedMonitor) (ev : List Sample) : Prop where
  recent_sorted : timeSorted m.recent_points
  ev_sorted : timeSorted ev
  ev_before_recent : ∀ a ∈ ev, ∀ b ∈ m.recent_points, a.t ≤ b.t
  pre_eq : m.pre_recent_point = ev.getLast?
  recent_ne : ev ≠ [] → m.recent_points ≠ []
  chain : extChain m.pre_recent_point m.recent_points

/-- A concrete enabled Y-axis validator with `min_speed = 1`, the given
grace period, `calculation_interval = 0` and a monitor with
`units_per_mm = 1` (the only way to obtain an instance, since the default
construction path is broken -- see the `TypeError` theorem). -/
def speedValidatorExample (grace : ℚ) : InstantaneousSpeedValidator :=
  { enabled := true, axis := ValidationAxis.y, min_speed := some 1, max_speed := none,
    grace_period := grace, speed_monitor := freshMonitor 1 0 none }

/-- Claim C1: on an enabled `MoveByGradientValidator`, `update_xyt` behaves
as follows.  If the image color at `(x, y)` is unavailable, it passes and
forgets the remembered color; if no last color is remembered it passes and
remembers the current color; otherwise, with `d` the signed color delta in
the configured direction: `d ≥ 0` passes and updates the memory;
`-max_valid_back_movement ≤ d < 0` passes without updating the memory;
else, if `cyclic` is enabled, the color range is known and
`|d| ≥ cyclic_ratio * (range - |d|)`, it passes (wraparound); in every
remaining case it fails with `GradientViolation`.  In particular, for a
0-255 color range with `cyclic = true`, a delta of `-250` never fails and a
delta of `-50` fails whenever `50 > max_valid_back_movement`. -/
theorem gradient_update_cases (v : MoveByGradientValidator) (x y : ℤ)
    (henabled : v.enabled = true) :
    (v.get_color_at x y = none →
      v.update_xyt x y = ({ v with last_color := none }, Verdict.pass)) ∧
    (∀ c, v.get_color_at x y = some c → v.last_color = none →
      v.update_xyt x y = ({ v with last_color := some c }, Verdict.pass)) ∧
    (∀ c lc d, v.get_color_at x y = some c → v.last_color = some lc →
      d = (c - lc) * (if v.rgb_should_ascend then 1 else -1) →
      (d ≥ 0 → v.update_xyt x y = ({ v with last_color := some c }, Verdict.pass)) ∧
      (-v.max_valid_back_movement ≤ d → d < 0 → v.update_xyt x y = (v, Verdict.pass)) ∧
      (d < 0 → d < -v.max_valid_back_movement → v.cyclic = true →
        v.min_available_color.isSome = true →
        |d| ≥ cyclic_ratio * (v.color_range - |d|) →
        v.update_xyt x y = ({ v with last_color := some c }, Verdict.pass)) ∧
      (d < 0 → d < -v.max_valid_back_movement →
        (v.cyclic = false ∨ v.min_available_color.isSome = false ∨
          |d| < cyclic_ratio * (v.color_range - |d|)) →
        v.update_xyt x y = (v, gradientViolation))) ∧
    (∀ mvbm : ℚ, ∀ x0 y0 : ℤ,
      ((gradExample mvbm 250 0).update_xyt x0 y0).2 = Verdict.pass) ∧
    (∀ mvbm : ℚ, ∀ x0 y0 : ℤ, mvbm < 50 →
      ((gradExample mvbm 250 200).update_xyt x0 y0).2 = gradientViolation) := by
  unfold MoveByGradientValidator.update_xyt
  refine ⟨?_, ?_, ?_, ?_, ?_⟩
  · intro h
    simp [henabled, h]
  · intro c hc hlc
    simp [henabled, hc, hlc]
  · intro c lc d hc hlc hd
    simp only [henabled, Bool.true_eq_false, if_false, hc, hlc, ← hd]
    refine ⟨?_, ?_, ?_, ?_⟩
    · intro h0
      rw [if_pos h0]
    · intro hback hneg
      rw [if_neg (by linarith), if_pos (by linarith)]
    · intro hneg hfar hcyc hmin hwrap
      rw [if_neg (by linarith), if_neg (by linarith), if_pos (by simp [hcyc, hmin]),
        if_pos (by simpa [MoveByGradientValidator.color_range] using hwrap)]
    · intro hneg hfar hrest
      rw [if_neg (by linarith), if_neg (by linarith)]
      rcases hrest with h | h | h
      · rw [if_neg (by simp [h])]
      · rw [if_neg (by simp [h])]
      · by_cases hcm : v.cyclic && v.min_available_color.isSome
        · rw [if_pos hcm,
            if_neg (by simpa [MoveByGradientValidator.color_range, not_le] using h)]
        · rw [if_neg hcm]
  · intro mvbm x0 y0
    by_cases h : (-250 : ℚ) ≥ -mvbm
    · norm_num [gradExample, MoveByGradientValidator.min_available_color,
        MoveByGradientValidator.max_available_color, cyclic_ratio, List.min?, List.max?, h]
    · norm_num [gradExample, MoveByGradientValidator.min_available_color,
        MoveByGradientValidator.max_available_color, cyclic_ratio, List.min?, List.max?, h]
  · intro mvbm x0 y0 hm
    have h1 : ¬((-50 : ℚ) ≥ -mvbm) := by linarith
    norm_num [gradExample, MoveByGradientValidator.min_available_color,
      MoveByGradientValidator.max_available_color, cyclic_ratio, List.min?, List.max?, h1,
      gradientViolation]

/-- Witness for C1: the gradient-update case analysis applied to a concrete
enabled validator over the 0-255 range, with a wrap-like delta of -250. -/
theorem gradient_update_cases_witness :
    (gradExample 10 250 0).enabled = true ∧
    ((gradExample 10 250 0).update_xyt 3 4).2 = Verdict.pass :=
  ⟨rfl, (gradient_update_cases (gradExample 10 250 0) 3 4 rfl).2.2.2.1 10 3 4⟩

/-- Counterexample to C3 as stated: with directional locking and
`touch_distance = 2`, the first sample at `(0, -5)` records approach sign
`+1` (below the line); the second sample `(0, -1)` is on the same side
(its perpendicular offset `1` has the same sign `+1`) and yet reports
`touched`, because its flipped distance `1` is below the threshold `2`. -/
theorem numberline_same_side_touch_counterexample :
    (nlExample.update_xyt 0 (-5)).initial_mouse_dir = some 1 ∧
    (nlExample.update_xyt 0 (-5)).last_touched_coord = none ∧
    npSign ((nlExample.update_xyt 0 (-5)).distance 0 (-1)) = 1 ∧
    ((nlExample.update_xyt 0 (-5)).update_xyt 0 (-1)).touched = true := by
  refine ⟨?_, ?_, ?_, ?_⟩ <;>
    norm_num [nlExample, NumberLine.update_xyt, NumberLine.distance,
      NumberLine.mouse_coord, NumberLine.line_coord, NumberLine.main_line_start,
      NumberLine.touch_coord, NumberLine.touched, npSign]

/-- Claim C3 (amended): with directional locking, the first sample after
reset records the approach sign and reports no touch; from the second
sample onward `touched` becomes true exactly when the signed distance
flipped by the recorded sign drops below `touch_distance`; a sample on the
same side as the initial one reports touched only when its unsigned
distance from the line is below `touch_distance` (not never, as claimed);
once touched, `update_xyt` leaves the state unchanged. -/
theorem numberline_directional_touch (nl : NumberLine) (x y : ℤ)
    (hdir : nl.touch_directioned = true) :
    (nl.last_touched_coord = none → nl.initial_mouse_dir = none →
      nl.update_xyt x y =
        { nl with initial_mouse_dir := some (npSign (nl.distance x y)) }) ∧
    (∀ s, nl.last_touched_coord = none → nl.initial_mouse_dir = some s →
      (nl.distance x y * s < nl.touch_distance →
        nl.update_xyt x y =
          { nl with last_touched_coord := some (nl.touch_coord x y) }) ∧
      (¬(nl.distance x y * s < nl.touch_distance) → nl.update_xyt x y = nl) ∧
      ((nl.update_xyt x y).touched = true ↔
        nl.distance x y * s < nl.touch_distance)) ∧
    (∀ s, nl.last_touched_coord = none → nl.initial_mouse_dir = some s →
      s = npSign (nl.distance x y) → s ≠ 0 →
      (nl.update_xyt x y).touched = true →
      |nl.distance x y| < nl.touch_distance) ∧
    (nl.last_touched_coord.isSome = true → nl.update_xyt x y = nl) := by
  have habs : ∀ d : ℚ, npSign d ≠ 0 → d * npSign d = |d| := by
    intro d hd
    unfold npSign at *
    rcases lt_trichotomy 0 d with h | h | h
    · rw [if_pos h, mul_one, abs_of_pos h]
    · simp [← h] at hd
    · rw [if_neg (by linarith), if_pos h, abs_of_neg h]
      ring
  refine ⟨?_, ?_, ?_, ?_⟩
  · intro hlt hdirnone
    simp [NumberLine.update_xyt, hlt, hdir, hdirnone]
  · intro s hlt hdirsome
    refine ⟨?_, ?_, ?_⟩
    · intro htouch
      simp [NumberLine.update_xyt, hlt, hdir, hdirsome, htouch]
    · intro htouch
      simp [NumberLine.update_xyt, hlt, hdir, hdirsome, htouch]
    · constructor
      · intro htouched
        by_contra htouch
        simp [NumberLine.update_xyt, hlt, hdir, hdirsome, htouch,
          NumberLine.touched] at htouched
      · intro htouch
        simp [NumberLine.update_xyt, hlt, hdir, hdirsome, htouch,
          NumberLine.touched]
  · intro s hlt hdirsome hsign hs htouched
    have h2 := habs (nl.distance x y) (by rw [← hsign]; exact hs)
    by_contra habs2
    have : ¬(nl.distance x y * s < nl.touch_distance) := by
      rw [hsign, h2]
      exact fun h => habs2 h
    simp [NumberLine.update_xyt, hlt, hdir, hdirsome, this,
      NumberLine.touched] at htouched
  · intro hsome
    simp [NumberLine.update_xyt, hsome]

/-- Witness for the amended C3: a sample crossing past the line on the
locked side reports touched; applied to the concrete number line after its
first (sign-recording) sample, with the third conjunct instantiated. -/
theorem numberline_directional_touch_witness :
    ((nlExample.update_xyt 0 (-5)).update_xyt 0 5).touched = true := by
  have h := numberline_directional_touch (nlExample.update_xyt 0 (-5)) 0 5 (by
    norm_num [nlExample, NumberLine.update_xyt, NumberLine.distance,
      NumberLine.mouse_coord, NumberLine.line_coord, NumberLine.main_line_start, npSign])
  have h1 : (nlExample.update_xyt 0 (-5)).last_touched_coord = none := by
    norm_num [nlExample, NumberLine.update_xyt, NumberLine.distance,
      NumberLine.mouse_coord, NumberLine.line_coord, NumberLine.main_line_start, npSign]
  have h2 : (nlExample.update_xyt 0 (-5)).initial_mouse_dir = some 1 := by
    norm_num [nlExample, NumberLine.update_xyt, NumberLine.distance,
      NumberLine.mouse_coord, NumberLine.line_coord, NumberLine.main_line_start, npSign]
  have h3 : (nlExample.update_xyt 0 (-5)).distance 0 5 * 1 <
      (nlExample.update_xyt 0 (-5)).touch_distance := by
    norm_num [nlExample, NumberLine.update_xyt, NumberLine.distance,
      NumberLine.mouse_coord, NumberLine.line_coord, NumberLine.main_line_start, npSign]
  exact ((h.2.1 1 h1 h2).2.2).mpr h3

theorem validate_time_ok_iff (m : SpeedMonitor) (t : ℚ) :
    m.validate_time t = Except.ok () ↔ ∀ pt, m.prev_time = some pt → pt ≤ t := by
  unfold SpeedMonitor.validate_time
  cases h : m.prev_time with
  | none => simp
  | some pt =>
    simp only [h]
    constructor
    · intro hok pt' hpt'
      injection hpt' with hpt'
      subst hpt'
      by_contra hgt
      rw [if_pos (by linarith)] at hok
      cases hok
    · intro hall
      rw [if_neg (by push_neg; exact hall pt rfl)]

theorem update_xyt_ok_iff (m : SpeedMonitor) (x y t : ℚ) (m2 : SpeedMonitor) :
    m.update_xyt x y t = Except.ok m2 ↔
      m.validate_time t = Except.ok () ∧ m2 = m.push_sample x y t := by
  unfold SpeedMonitor.update_xyt
  cases h : m.validate_time t with
  | error e => simp [h]
  | ok u =>
    cases u
    simp [h, eq_comm]

theorem sorted_le_getLast {ps : List Sample} (hs : timeSorted ps) {q : Sample}
    (hq : ps.getLast? = some q) : ∀ b ∈ ps, b.t ≤ q.t := by
  induction ps with
  | nil => simp at hq
  | cons a rest ih =>
    cases rest with
    | nil =>
      simp at hq
      subst hq
      intro b hb
      simp at hb
      subst hb
      exact le_refl _
    | cons c rest2 =>
      rw [List.getLast?_cons_cons] at hq
      have hcons := List.pairwise_cons.mp hs
      have hqmem := List.mem_of_getLast?_eq_some hq
      intro b hb
      rcases List.mem_cons.mp hb with hb | hb
      · subst hb
        exact hcons.1 q hqmem
      · exact ih hcons.2 hq b hb

theorem evict_find_spec {ps : List Sample} {lgt : ℚ} {k : ℕ} {p : Sample}
    (h : (ps.enum.filter fun ip => decide (ip.2.t ≤ lgt)).getLast? = some (k, p)) :
    ps.get? k = some p ∧ p.t ≤ lgt ∧ k < ps.length := by
  have hmem := List.mem_of_getLast?_eq_some h
  rw [List.mem_filter] at hmem
  obtain ⟨hmem, hp⟩ := hmem
  rw [List.mem_enum_iff_get?] at hmem
  refine ⟨hmem, by simpa using hp, ?_⟩
  by_contra hk
  push_neg at hk
  rw [List.get?_eq_none.mpr hk] at hmem
  cases hmem

theorem evict_find_none {ps : List Sample} {lgt : ℚ}
    (h : (ps.enum.filter fun ip => decide (ip.2.t ≤ lgt)).getLast? = none) :
    ∀ a ∈ ps, ¬(a.t ≤ lgt) := by
  rw [List.getLast?_eq_none_iff, List.filter_eq_nil_iff] at h
  intro a ha hle
  obtain ⟨i, hi⟩ := List.mem_iff_get?.mp ha
  exact absurd (by simpa using hle)
    (by simpa using h (i, a) (List.mem_enum_iff_get?.mpr hi))

theorem getLast?_take_succ {α : Type*} (l : List α) (k : ℕ) (hk : k < l.length) :
    (l.take (k + 1)).getLast? = l.get? k := by
  rw [List.getLast?_eq_getElem?]
  have hlen : (l.take (k + 1)).length = k + 1 := by
    rw [List.length_take]
    omega
  rw [hlen, Nat.add_sub_cancel, List.getElem?_take_of_succ, List.get?_eq_getElem?]

theorem getLast?_drop_of_ne_nil {α : Type*} (l : List α) (n : ℕ) (h : l.drop n ≠ []) :
    (l.drop n).getLast? = l.getLast? := by
  obtain ⟨a, ha⟩ : ∃ a, (l.drop n).getLast? = some a := by
    cases hd : (l.drop n).getLast? with
    | none => exact absurd (List.getLast?_eq_none_iff.mp hd) h
    | some a => exact ⟨a, rfl⟩
  conv_rhs => rw [← List.take_append_drop n l]
  rw [List.getLast?_append, ha]
  rfl

theorem chain_snoc {α : Type*} {R : α → α → Prop} {a b : α} {l : List α}
    (hc : List.Chain R a l) (hr : ∀ x, (a :: l).getLast? = some x → R x b) :
    List.Chain R a (l ++ [b]) := by
  induction l generalizing a with
  | nil =>
    simp only [List.nil_append]
    exact List.Chain.cons (hr a (by simp)) List.Chain.nil
  | cons c rest ih =>
    rw [List.chain_cons] at hc
    rw [List.cons_append, List.chain_cons]
    exact ⟨hc.1, ih hc.2 (fun z hz => hr z (by rwa [List.getLast?_cons_cons]))⟩

theorem extChain_chain' {pre : Option Sample} {l : List Sample} (h : extChain pre l) :
    List.Chain' distRel l := by
  match pre, l with
  | none, [] => exact List.chain'_nil
  | some _, [] => exact List.chain'_nil
  | none, q :: rest => exact h.2
  | some p, q :: rest => exact (List.chain_cons.mp h).2

theorem extChain_some (p : Sample) (l : List Sample) :
    extChain (some p) l ↔ List.Chain distRel p l := by
  cases l with
  | nil => exact ⟨fun _ => List.Chain.nil, fun _ => trivial⟩
  | cons q rest => exact Iff.rfl

theorem push_sample_no_evict (m : SpeedMonitor) (x y t : ℚ)
    (hfind : (m.recent_points.enum.filter
      fun ip => decide (ip.2.t ≤ t - m.calculation_interval)).getLast? = none) :
    (m.push_sample x y t).recent_points
      = m.recent_points ++
        [⟨x / m.units_per_mm, y / m.units_per_mm, t, m.pushDist x y⟩] ∧
    (m.push_sample x y t).pre_recent_point = m.pre_recent_point ∧
    m.evicted_by t = [] := by
  unfold SpeedMonitor.push_sample SpeedMonitor.remove_recent_points_older_than
    SpeedMonitor.evicted_by
  dsimp only
  rw [hfind]
  exact ⟨rfl, rfl, rfl⟩

theorem push_sample_evict (m : SpeedMonitor) (x y t : ℚ) (k : ℕ) (p : Sample)
    (hfind : (m.recent_points.enum.filter
      fun ip => decide (ip.2.t ≤ t - m.calculation_interval)).getLast? = some (k, p)) :
    (m.push_sample x y t).recent_points
      = m.recent_points.drop (k + 1) ++
        [⟨x / m.units_per_mm, y / m.units_per_mm, t, m.pushDist x y⟩] ∧
    (m.push_sample x y t).pre_recent_point = some p ∧
    m.evicted_by t = m.recent_points.take (k + 1) := by
  unfold SpeedMonitor.push_sample SpeedMonitor.remove_recent_points_older_than
    SpeedMonitor.evicted_by
  dsimp only
  rw [hfind]
  exact ⟨rfl, rfl, rfl⟩

theorem push_sample_fields (m : SpeedMonitor) (x y t : ℚ) :
    (m.push_sample x y t).units_per_mm = m.units_per_mm ∧
    (m.push_sample x y t).calculation_interval = m.calculation_interval ∧
    (m.push_sample x y t).time0.isSome = true := by
  unfold SpeedMonitor.push_sample SpeedMonitor.remove_recent_points_older_than
  dsimp only
  cases hfind : (m.recent_points.enum.filter
      fun ip => decide (ip.2.t ≤ t - m.calculation_interval)).getLast? with
  | none =>
    cases h0 : m.time0 <;> simp
  | some kp =>
    obtain ⟨k, p⟩ := kp
    cases h0 : m.time0 <;> simp

theorem inv_step {m : SpeedMonitor} {ev : List Sample} {x y t : ℚ} {m2 : SpeedMonitor}
    (hinv : MonitorInv m ev) (hupd : m.update_xyt x y t = Except.ok m2) :
    MonitorInv m2 (ev ++ m.evicted_by t) := by
  rw [update_xyt_ok_iff] at hupd
  obtain ⟨hval, hm2⟩ := hupd
  rw [validate_time_ok_iff] at hval
  have hle_t : ∀ b ∈ m.recent_points, b.t ≤ t := by
    intro b hb
    have hnil : m.recent_points ≠ [] := by
      intro hn
      rw [hn] at hb
      cases hb
    obtain ⟨q, hlast⟩ : ∃ q, m.recent_points.getLast? = some q := by
      cases hl : m.recent_points.getLast? with
      | none => exact absurd (List.getLast?_eq_none_iff.mp hl) hnil
      | some q => exact ⟨q, rfl⟩
    have h1 := sorted_le_getLast hinv.recent_sorted hlast b hb
    have h2 := hval q.t (by unfold SpeedMonitor.prev_time; rw [hlast])
    linarith
  have hev_le_t : ∀ a ∈ ev, a.t ≤ t := by
    intro a ha
    have hne : m.recent_points ≠ [] := hinv.recent_ne (by
      intro hn
      rw [hn] at ha
      cases ha)
    obtain ⟨q, hlast⟩ : ∃ q, m.recent_points.getLast? = some q := by
      cases hl : m.recent_points.getLast? with
      | none => exact absurd (List.getLast?_eq_none_iff.mp hl) hne
      | some q => exact ⟨q, rfl⟩
    have h1 := hinv.ev_before_recent a ha q (List.mem_of_getLast?_eq_some hlast)
    have h2 := hval q.t (by unfold SpeedMonitor.prev_time; rw [hlast])
    linarith
  have hlastrel : ∀ z, m.recent_points.getLast? = some z →
      distRel z ⟨x / m.units_per_mm, y / m.units_per_mm, t, m.pushDist x y⟩ := by
    intro z hz
    show m.pushDist x y = _
    unfold SpeedMonitor.pushDist
    rw [hz]
  subst hm2
  cases hfind : (m.recent_points.enum.filter
      fun ip => decide (ip.2.t ≤ t - m.calculation_interval)).getLast? with
  | none =>
    obtain ⟨hrec, hpre, hev⟩ := push_sample_no_evict m x y t hfind
    rw [hev, List.append_nil]
    constructor
    · rw [hrec]
      unfold timeSorted
      rw [List.pairwise_append]
      refine ⟨hinv.recent_sorted, List.pairwise_singleton _ _, ?_⟩
      intro a ha b hb
      rw [List.mem_singleton] at hb
      subst hb
      exact hle_t a ha
    · exact hinv.ev_sorted
    · intro a ha b hb
      rw [hrec, List.mem_append] at hb
      rcases hb with hb | hb
      · exact hinv.ev_before_recent a ha b hb
      · rw [List.mem_singleton] at hb
        subst hb
        exact hev_le_t a ha
    · rw [hpre]
      exact hinv.pre_eq
    · intro _
      rw [hrec]
      simp
    · rw [hpre, hrec]
      have hchain := hinv.chain
      cases hpc : m.pre_recent_point with
      | none =>
        rw [hpc] at hchain
        cases hrl : m.recent_points with
        | nil =>
          rw [List.nil_append]
          refine ⟨?_, List.chain'_singleton _⟩
          show m.pushDist x y = 0
          unfold SpeedMonitor.pushDist
          rw [hrl]
          rfl
        | cons q rest =>
          rw [hrl] at hchain
          rw [List.cons_append]
          refine ⟨hchain.1, ?_⟩
          show List.Chain distRel q (rest ++ [_])
          refine chain_snoc hchain.2 ?_
          intro z hz
          exact hlastrel z (by rw [hrl]; exact hz)
      | some p =>
        rw [hpc] at hchain
        cases hrl : m.recent_points with
        | nil =>
          exfalso
          have hevne : ev ≠ [] := by
            intro hn
            rw [hinv.pre_eq, hn] at hpc
            cases hpc
          exact hinv.recent_ne hevne hrl
        | cons q rest =>
          rw [hrl] at hchain
          rw [List.cons_append]
          show List.Chain distRel p (q :: (rest ++ [_]))
          rw [show q :: (rest ++ [_]) = (q :: rest) ++ [_] from rfl]
          refine chain_snoc hchain ?_
          intro z hz
          rw [List.getLast?_cons_cons] at hz
          exact hlastrel z (by rw [hrl]; exact hz)
  | some kp =>
    obtain ⟨k, p⟩ := kp
    obtain ⟨hgetk, hplgt, hklen⟩ := evict_find_spec hfind
    obtain ⟨hrec, hpre, hev⟩ := push_sample_evict m x y t k p hfind
    have htkdk := List.take_append_drop (k + 1) m.recent_points
    have htk_sorted : timeSorted (m.recent_points.take (k + 1)) :=
      List.Pairwise.sublist (List.take_sublist _ _) hinv.recent_sorted
    have hdk_sorted : timeSorted (m.recent_points.drop (k + 1)) :=
      List.Pairwise.sublist (List.drop_sublist _ _) hinv.recent_sorted
    have hcross : ∀ a ∈ m.recent_points.take (k + 1),
        ∀ b ∈ m.recent_points.drop (k + 1), a.t ≤ b.t := by
      have h2 := hinv.recent_sorted
      conv at h2 => rw [← htkdk]
      unfold timeSorted at h2
      rw [List.pairwise_append] at h2
      exact h2.2.2
    have hgetLast_tk : (m.recent_points.take (k + 1)).getLast? = some p := by
      rw [getLast?_take_succ _ _ hklen]
      exact hgetk
    have htk_ne : m.recent_points.take (k + 1) ≠ [] := by
      intro hn
      rw [hn] at hgetLast_tk
      cases hgetLast_tk
    rw [hev]
    constructor
    · rw [hrec]
      unfold timeSorted
      rw [List.pairwise_append]
      refine ⟨hdk_sorted, List.pairwise_singleton _ _, ?_⟩
      intro a ha b hb
      rw [List.mem_singleton] at hb
      subst hb
      exact hle_t a (List.drop_subset _ _ ha)
    · unfold timeSorted
      rw [List.pairwise_append]
      exact ⟨hinv.ev_sorted, htk_sorted, fun a ha b hb =>
        hinv.ev_before_recent a ha b (List.take_subset _ _ hb)⟩
    · intro a ha b hb
      rw [hrec, List.mem_append] at hb
      rw [List.mem_append] at ha
      rcases ha with ha | ha
      · rcases hb with hb | hb
        · exact hinv.ev_before_recent a ha b (List.drop_subset _ _ hb)
        · rw [List.mem_singleton] at hb
          subst hb
          exact hev_le_t a ha
      · rcases hb with hb | hb
        · exact hcross a ha b hb
        · rw [List.mem_singleton] at hb
          subst hb
          exact hle_t a (List.take_subset _ _ ha)
    · rw [hpre, List.getLast?_append, hgetLast_tk]
      rfl
    · intro _
      rw [hrec]
      simp
    · rw [hpre, hrec]
      have hchain' : List.Chain' distRel m.recent_points := extChain_chain' hinv.chain
      have hp_eq : m.recent_points.get ⟨k, hklen⟩ = p := by
        have := hgetk
        rw [List.get?_eq_some] at this
        obtain ⟨h1, h2⟩ := this
        exact h2
      have hdropk : m.recent_points.get ⟨k, hklen⟩ :: m.recent_points.drop (k + 1)
          = m.recent_points.drop k := by
        exact List.getElem_cons_drop _ _ hklen
      have hchain_p : List.Chain distRel p (m.recent_points.drop (k + 1)) := by
        have hd := hchain'.drop k
        rw [← hdropk, hp_eq] at hd
        exact hd
      rw [extChain_some]
      refine chain_snoc hchain_p ?_
      intro z hz
      cases hdk : m.recent_points.drop (k + 1) with
      | nil =>
        rw [hdk] at hz
        simp at hz
        subst hz
        refine hlastrel _ ?_
        have hlen_le : m.recent_points.length ≤ k + 1 := by
          by_contra hlt
          push_neg at hlt
          have : m.recent_points.drop (k + 1) ≠ [] := by
            intro hn
            have := List.length_drop (k + 1) m.recent_points
            rw [hn] at this
            simp at this
            omega
          exact this hdk
        have hk_eq : k = m.recent_points.length - 1 := by omega
        rw [List.getLast?_eq_getElem?, ← hk_eq, ← List.get?_eq_getElem?]
        exact hgetk
      | cons d rest =>
        rw [hdk] at hz
        rw [List.getLast?_cons_cons] at hz
        refine hlastrel z ?_
        rw [← getLast?_drop_of_ne_nil m.recent_points (k + 1) (by rw [hdk]; simp)]
        rw [hdk]
        exact hz

theorem inv_fresh (u c : ℚ) (t0 : Option ℚ) : MonitorInv (freshMonitor u c t0) [] := by
  constructor <;> simp [freshMonitor, timeSorted, extChain]

theorem inv_runEvicted {m : SpeedMonitor} {ev : List Sample} {l : List (ℚ × ℚ × ℚ)}
    {m2 : SpeedMonitor} {ev2 : List Sample}
    (hinv : MonitorInv m ev) (hrun : m.runEvicted ev l = Except.ok (m2, ev2)) :
    MonitorInv m2 ev2 := by
  induction l generalizing m ev with
  | nil =>
    unfold SpeedMonitor.runEvicted at hrun
    injection hrun with h
    injection h with h1 h2
    subst h1
    subst h2
    exact hinv
  | cons xyz rest ih =>
    obtain ⟨xx, yy, tt⟩ := xyz
    unfold SpeedMonitor.runEvicted at hrun
    cases hupd : m.update_xyt xx yy tt with
    | error e =>
      rw [hupd] at hrun
      cases hrun
    | ok mnext =>
      rw [hupd] at hrun
      exact ih (inv_step hinv hupd) hrun

theorem update_result_has_sample {m m2 : SpeedMonitor} {x y t : ℚ}
    (h : m.update_xyt x y t = Except.ok m2) :
    m2.time0.isSome = true ∧ m2.recent_points ≠ [] := by
  rw [update_xyt_ok_iff] at h
  obtain ⟨-, hm2⟩ := h
  subst hm2
  refine ⟨(push_sample_fields m x y t).2.2, ?_⟩
  cases hfind : (m.recent_points.enum.filter
      fun ip => decide (ip.2.t ≤ t - m.calculation_interval)).getLast? with
  | none =>
    obtain ⟨hrec, -, -⟩ := push_sample_no_evict m x y t hfind
    rw [hrec]
    simp
  | some kp =>
    obtain ⟨k, p⟩ := kp
    obtain ⟨hrec, -, -⟩ := push_sample_evict m x y t k p hfind
    rw [hrec]
    simp

theorem runEvicted_last_state {m : SpeedMonitor} {ev : List Sample}
    {l : List (ℚ × ℚ × ℚ)} {m2 : SpeedMonitor} {ev2 : List Sample}
    (h : m.runEvicted ev l = Except.ok (m2, ev2)) (hl : l ≠ []) :
    m2.time0.isSome = true ∧ m2.recent_points ≠ [] := by
  induction l generalizing m ev with
  | nil => exact absurd rfl hl
  | cons xyz rest ih =>
    obtain ⟨xx, yy, tt⟩ := xyz
    unfold SpeedMonitor.runEvicted at h
    cases hupd : m.update_xyt xx yy tt with
    | error e =>
      rw [hupd] at h
      cases h
    | ok mnext =>
      rw [hupd] at h
      cases rest with
      | nil =>
        unfold SpeedMonitor.runEvicted at h
        injection h with h
        injection h with h1 h2
        subst h1
        exact update_result_has_sample hupd
      | cons z rest2 =>
        exact ih h (by simp)

theorem dist2_nonneg (x1 y1 x2 y2 : ℚ) : 0 ≤ dist2 x1 y1 x2 y2 :=
  Real.sqrt_nonneg _

theorem abs_dx_le_dist2 (x1 y1 x2 y2 : ℚ) :
    |((x2 - x1 : ℚ) : ℝ)| ≤ dist2 x1 y1 x2 y2 := by
  unfold dist2
  rw [← Real.sqrt_sq_eq_abs]
  apply Real.sqrt_le_sqrt
  nlinarith [sq_nonneg ((y2 - y1 : ℚ) : ℝ)]

theorem abs_dy_le_dist2 (x1 y1 x2 y2 : ℚ) :
    |((y2 - y1 : ℚ) : ℝ)| ≤ dist2 x1 y1 x2 y2 := by
  unfold dist2
  rw [← Real.sqrt_sq_eq_abs]
  apply Real.sqrt_le_sqrt
  nlinarith [sq_nonneg ((x2 - x1 : ℚ) : ℝ)]

theorem chain_dist_sum_ge {p : Sample} {l : List Sample}
    (hc : List.Chain distRel p l) {q : Sample} (hq : l.getLast? = some q) :
    |((q.x - p.x : ℚ) : ℝ)| ≤ (l.map Sample.dist).sum ∧
    |((q.y - p.y : ℚ) : ℝ)| ≤ (l.map Sample.dist).sum := by
  induction l generalizing p with
  | nil => cases hq
  | cons a rest ih =>
    rw [List.chain_cons] at hc
    have ha : a.dist = dist2 p.x p.y a.x a.y := hc.1
    cases rest with
    | nil =>
      simp only [List.getLast?_singleton] at hq
      injection hq with hq
      subst hq
      simp only [List.map_cons, List.map_nil, List.sum_cons, List.sum_nil, add_zero]
      rw [ha]
      exact ⟨abs_dx_le_dist2 _ _ _ _, abs_dy_le_dist2 _ _ _ _⟩
    | cons b rest2 =>
      rw [List.getLast?_cons_cons] at hq
      obtain ⟨ihx, ihy⟩ := ih hc.2 hq
      simp only [List.map_cons, List.sum_cons]
      constructor
      · have h1 : |((a.x - p.x : ℚ) : ℝ)| ≤ a.dist := by
          rw [ha]
          exact abs_dx_le_dist2 _ _ _ _
        have h2 : ((q.x - p.x : ℚ) : ℝ) = ((a.x - p.x : ℚ) : ℝ) + ((q.x - a.x : ℚ) : ℝ) := by
          push_cast
          ring
        calc |((q.x - p.x : ℚ) : ℝ)| ≤ |((a.x - p.x : ℚ) : ℝ)| + |((q.x - a.x : ℚ) : ℝ)| := by
              rw [h2]
              exact abs_add _ _
        _ ≤ a.dist + ((b :: rest2).map Sample.dist).sum := add_le_add h1 ihx
      · have h1 : |((a.y - p.y : ℚ) : ℝ)| ≤ a.dist := by
          rw [ha]
          exact abs_dy_le_dist2 _ _ _ _
        have h2 : ((q.y - p.y : ℚ) : ℝ) = ((a.y - p.y : ℚ) : ℝ) + ((q.y - a.y : ℚ) : ℝ) := by
          push_cast
          ring
        calc |((q.y - p.y : ℚ) : ℝ)| ≤ |((a.y - p.y : ℚ) : ℝ)| + |((q.y - a.y : ℚ) : ℝ)| := by
              rw [h2]
              exact abs_add _ _
        _ ≤ a.dist + ((b :: rest2).map Sample.dist).sum := add_le_add h1 ihy

/-- Claim C2: over any successful sequence of `update_xyt` calls with
non-decreasing timestamps starting from a fresh monitor, the retained
sample list is ordered by time; the retained pre-window sample is the
most-recently-evicted sample and is the newest among all samples evicted
so far; and the sample pushed by a call is never evicted by that same call
(it ends up as the newest retained sample). -/
theorem sliding_window_invariant (u c : ℚ) (t0 : Option ℚ) (l : List (ℚ × ℚ × ℚ))
    (m : SpeedMonitor) (ev : List Sample)
    (hmono : l.Chain' (fun a b => a.2.2 ≤ b.2.2))
    (hrun : (freshMonitor u c t0).runEvicted [] l = Except.ok (m, ev)) :
    timeSorted m.recent_points ∧
    timeSorted ev ∧
    (∀ a ∈ ev, ∀ b ∈ m.recent_points, a.t ≤ b.t) ∧
    m.pre_recent_point = ev.getLast? ∧
    (∀ (m1 : SpeedMonitor) (x y t : ℚ) (m2 : SpeedMonitor),
      m1.update_xyt x y t = Except.ok m2 →
      ∃ d, m2.recent_points.getLast?
        = some ⟨x / m1.units_per_mm, y / m1.units_per_mm, t, d⟩) := by
  have hinv := inv_runEvicted (inv_fresh u c t0) hrun
  refine ⟨hinv.recent_sorted, hinv.ev_sorted, hinv.ev_before_recent, hinv.pre_eq, ?_⟩
  intro m1 x y t m2 hupd
  rw [update_xyt_ok_iff] at hupd
  obtain ⟨-, hm2⟩ := hupd
  subst hm2
  cases hfind : (m1.recent_points.enum.filter
      fun ip => decide (ip.2.t ≤ t - m1.calculation_interval)).getLast? with
  | none =>
    obtain ⟨hrec, -, -⟩ := push_sample_no_evict m1 x y t hfind
    exact ⟨m1.pushDist x y, by rw [hrec, List.getLast?_concat]⟩
  | some kp =>
    obtain ⟨k, p⟩ := kp
    obtain ⟨hrec, -, -⟩ := push_sample_evict m1 x y t k p hfind
    exact ⟨m1.pushDist x y, by rw [hrec, List.getLast?_concat]⟩

/-- Claim C4: whenever `xspeed`, `yspeed` and `xyspeed` are all defined
after a run from a fresh monitor, the path-length speed `xyspeed` bounds
the absolute axis speeds. -/
theorem xyspeed_dominates (u c : ℚ) (t0 : Option ℚ) (l : List (ℚ × ℚ × ℚ))
    (m : SpeedMonitor) (ev : List Sample) (sx sy : ℚ) (sxy : ℝ)
    (hrun : (freshMonitor u c t0).runEvicted [] l = Except.ok (m, ev))
    (hx : m.xspeed = Except.ok (some sx))
    (hy : m.yspeed = Except.ok (some sy))
    (hxy : m.xyspeed = Except.ok (some sxy)) :
    |(sx : ℝ)| ≤ sxy ∧ |(sy : ℝ)| ≤ sxy := by
  have hinv := inv_runEvicted (inv_fresh u c t0) hrun
  unfold SpeedMonitor.xspeed at hx
  unfold SpeedMonitor.yspeed at hy
  unfold SpeedMonitor.xyspeed at hxy
  cases hpre : m.pre_recent_point with
  | none =>
    rw [hpre] at hx
    simp at hx
  | some p =>
    rw [hpre] at hx hy hxy
    cases hlast : m.recent_points.getLast? with
    | none =>
      rw [hlast] at hx
      simp at hx
    | some q =>
      rw [hlast] at hx hy
      have hlci : m.last_calculation_interval = Except.ok (some (q.t - p.t)) := by
        unfold SpeedMonitor.last_calculation_interval
        rw [hpre, hlast]
      rw [hlci] at hx hy hxy
      dsimp only at hx hy hxy
      by_cases hz : q.t - p.t = 0
      · rw [if_pos hz] at hx
        simp at hx
      · rw [if_neg hz] at hx hy hxy
        injection hx with hx
        injection hx with hx
        injection hy with hy
        injection hy with hy
        injection hxy with hxy
        injection hxy with hxy
        subst hx
        subst hy
        subst hxy
        have hpmem : p ∈ ev := by
          have := hinv.pre_eq
          rw [hpre] at this
          exact List.mem_of_getLast?_eq_some this.symm
        have hqmem : q ∈ m.recent_points := List.mem_of_getLast?_eq_some hlast
        have hple : p.t ≤ q.t := hinv.ev_before_recent p hpmem q hqmem
        have hpos : 0 < q.t - p.t := lt_of_le_of_ne (by linarith) (Ne.symm hz)
        have hposR : (0 : ℝ) < ((q.t - p.t : ℚ) : ℝ) := by exact_mod_cast hpos
        have hchain : List.Chain distRel p m.recent_points := by
          have hch := hinv.chain
          rw [hpre] at hch
          exact (extChain_some p m.recent_points).mp hch
        obtain ⟨hsumx, hsumy⟩ := chain_dist_sum_ge hchain hlast
        constructor
        · have hcast : (((q.x - p.x) / (q.t - p.t) : ℚ) : ℝ)
              = ((q.x - p.x : ℚ) : ℝ) / ((q.t - p.t : ℚ) : ℝ) := by
            push_cast
            ring
          rw [hcast, abs_div, abs_of_pos hposR, div_le_div_right hposR]
          exact hsumx
        · have hcast : (((q.y - p.y) / (q.t - p.t) : ℚ) : ℝ)
              = ((q.y - p.y : ℚ) : ℝ) / ((q.t - p.t : ℚ) : ℝ) := by
            push_cast
            ring
          rw [hcast, abs_div, abs_of_pos hposR, div_le_div_right hposR]
          exact hsumy

/-- Claim C8 (amended): after any successful run from a fresh monitor,
`xspeed`, `yspeed`, `xyspeed` and `last_calculation_interval` return
`None` until at least one sample has been evicted, and return a value only
after an eviction; `time_in_trial`, however, is already non-`None` as soon
as one sample has been pushed, before any eviction. -/
theorem queries_require_eviction (u c : ℚ) (t0 : Option ℚ) (l : List (ℚ × ℚ × ℚ))
    (m : SpeedMonitor) (ev : List Sample)
    (hrun : (freshMonitor u c t0).runEvicted [] l = Except.ok (m, ev)) :
    (ev = [] →
      m.xspeed = Except.ok none ∧ m.yspeed = Except.ok none ∧
      m.xyspeed = Except.ok none ∧ m.last_calculation_interval = Except.ok none) ∧
    (∀ q : ℚ, m.xspeed = Except.ok (some q) → ev ≠ []) ∧
    (∀ q : ℚ, m.yspeed = Except.ok (some q) → ev ≠ []) ∧
    (∀ r : ℝ, m.xyspeed = Except.ok (some r) → ev ≠ []) ∧
    (∀ q : ℚ, m.last_calculation_interval = Except.ok (some q) → ev ≠ []) ∧
    (l ≠ [] → ∃ q, m.time_in_trial = some q) := by
  have hinv := inv_runEvicted (inv_fresh u c t0) hrun
  have hpre_of_ne : ∀ p : Sample, m.pre_recent_point = some p → ev ≠ [] := by
    intro p hp hev
    rw [hinv.pre_eq, hev] at hp
    cases hp
  constructor
  · intro hev
    have hpre : m.pre_recent_point = none := by
      rw [hinv.pre_eq, hev]
      rfl
    refine ⟨?_, ?_, ?_, ?_⟩
    · unfold SpeedMonitor.xspeed
      rw [hpre]
    · unfold SpeedMonitor.yspeed
      rw [hpre]
    · unfold SpeedMonitor.xyspeed
      rw [hpre]
    · unfold SpeedMonitor.last_calculation_interval
      rw [hpre]
  refine ⟨?_, ?_, ?_, ?_, ?_⟩
  · intro q hq
    unfold SpeedMonitor.xspeed at hq
    cases hpre : m.pre_recent_point with
    | none =>
      rw [hpre] at hq
      simp at hq
    | some p => exact hpre_of_ne p hpre
  · intro q hq
    unfold SpeedMonitor.yspeed at hq
    cases hpre : m.pre_recent_point with
    | none =>
      rw [hpre] at hq
      simp at hq
    | some p => exact hpre_of_ne p hpre
  · intro r hr
    unfold SpeedMonitor.xyspeed at hr
    cases hpre : m.pre_recent_point with
    | none =>
      rw [hpre] at hr
      simp at hr
    | some p => exact hpre_of_ne p hpre
  · intro q hq
    unfold SpeedMonitor.last_calculation_interval at hq
    cases hpre : m.pre_recent_point with
    | none =>
      rw [hpre] at hq
      simp at hq
    | some p => exact hpre_of_ne p hpre
  · intro hl
    obtain ⟨ht0, hne⟩ := runEvicted_last_state hrun hl
    obtain ⟨tt0, ht0'⟩ := Option.isSome_iff_exists.mp ht0
    obtain ⟨q, hq⟩ : ∃ q, m.recent_points.getLast? = some q := by
      cases hgl : m.recent_points.getLast? with
      | none => exact absurd (List.getLast?_eq_none_iff.mp hgl) hne
      | some q => exact ⟨q, rfl⟩
    refine ⟨q.t - tt0, ?_⟩
    unfold SpeedMonitor.time_in_trial
    rw [ht0', hq]

/-- Claim C5: calling `update_xyt` raises a fatal `InvalidStateError`
(not a `Fail` verdict) exactly when `t` is strictly smaller than the last
pushed sample's time (or than `t0` when no sample exists); the raise
happens before any mutation, so the monitor state is unchanged; and a call
with `t` at least the previous time never raises. -/
theorem update_time_contract (m : SpeedMonitor) (x y t : ℚ) :
    (∀ pt, m.prev_time = some pt → pt > t →
      m.update_xyt_call x y t = (m, some PyErr.invalidState)) ∧
    ((∀ pt, m.prev_time = some pt → pt ≤ t) → (m.update_xyt_call x y t).2 = none) := by
  constructor
  · intro pt hpt hgt
    unfold SpeedMonitor.update_xyt_call SpeedMonitor.update_xyt SpeedMonitor.validate_time
    rw [hpt]
    dsimp only
    rw [if_pos hgt]
  · intro hall
    unfold SpeedMonitor.update_xyt_call SpeedMonitor.update_xyt
    rw [(validate_time_ok_iff m t).mpr hall]

/-- Witness for C5: a monitor reset at time 5 rejects a push at time 3
without touching its state, and accepts a push at time 7. -/
theorem update_time_contract_witness :
    (freshMonitor 1 0 (some 5)).update_xyt_call 0 0 3
      = (freshMonitor 1 0 (some 5), some PyErr.invalidState) ∧
    ((freshMonitor 1 0 (some 5)).update_xyt_call 0 0 7).2 = none := by
  constructor
  · exact (update_time_contract (freshMonitor 1 0 (some 5)) 0 0 3).1 5 rfl (by norm_num)
  · refine (update_time_contract (freshMonitor 1 0 (some 5)) 0 0 7).2 ?_
    intro pt hpt
    have h5 : (freshMonitor 1 0 (some 5)).prev_time = some 5 := rfl
    rw [h5] at hpt
    injection hpt with h
    subst h
    norm_num

/-- Claim C10: two `update_xyt` calls at the same timestamp are accepted
(only strictly decreasing time is rejected); with `calculation_interval`
0 the first sample is then evicted as the left endpoint at elapsed time 0,
so `last_calculation_interval` is 0 and `x_speed`/`y_speed`/`xy_speed`
divide by zero and raise instead of returning `None` or a number. -/
theorem same_time_pushes_zero_division :
    ((freshMonitor 1 0 none).run [(0, 0, 1), (0, 0, 1)]).map
        SpeedMonitor.last_calculation_interval = Except.ok (Except.ok (some 0)) ∧
    ((freshMonitor 1 0 none).run [(0, 0, 1), (0, 0, 1)]).map SpeedMonitor.xspeed
      = Except.ok (Except.error PyErr.zeroDivision) ∧
    ((freshMonitor 1 0 none).run [(0, 0, 1), (0, 0, 1)]).map SpeedMonitor.yspeed
      = Except.ok (Except.error PyErr.zeroDivision) ∧
    ((freshMonitor 1 0 none).run [(0, 0, 1), (0, 0, 1)]).map SpeedMonitor.xyspeed
      = Except.ok (Except.error PyErr.zeroDivision) := by
  refine ⟨?_, ?_, ?_, ?_⟩ <;>
    norm_num [SpeedMonitor.run, SpeedMonitor.update_xyt, SpeedMonitor.push_sample,
      SpeedMonitor.pushDist, SpeedMonitor.validate_time, SpeedMonitor.prev_time,
      SpeedMonitor.remove_recent_points_older_than, freshMonitor,
      SpeedMonitor.last_calculation_interval, SpeedMonitor.xspeed, SpeedMonitor.yspeed,
      SpeedMonitor.xyspeed, Except.map, List.enum, List.enumFrom, List.filter,
      List.getLast?]

/-- Counterexample to C8 as stated: one single push (no eviction has ever
occurred, the accumulated evicted list is empty), yet `time_in_trial`
already returns a value (`0`) rather than `None`. -/
theorem time_in_trial_without_eviction :
    ((freshMonitor 1 1 none).runEvicted [] [(0, 0, 0)]).map
        (fun r => (r.1.time_in_trial, r.2)) = Except.ok ((some 0 : Option ℚ), ([] : List Sample)) := by
  norm_num [SpeedMonitor.runEvicted, SpeedMonitor.update_xyt, SpeedMonitor.push_sample,
    SpeedMonitor.pushDist, SpeedMonitor.validate_time, SpeedMonitor.prev_time,
    SpeedMonitor.remove_recent_points_older_than, SpeedMonitor.evicted_by, freshMonitor,
    SpeedMonitor.time_in_trial, Except.map, List.enum, List.enumFrom, List.filter,
    List.getLast?]

/-- Claim C6: with axis Y, `min_speed = 1`, zero grace period and
calculation interval, the samples (0,0,0), (0,1,1), (0,1.5,2) yield Pass,
Pass, and then a `TooSlowInstantaneous` failure carrying speed 0.5. -/
theorem instantaneous_speed_trace :
    ((speedValidatorExample 0).run [(0, 0, 0), (0, 1, 1), (0, 3/2, 2)]).map Prod.snd
      = Except.ok [Verdict.pass, Verdict.pass,
          Verdict.fail "TooSlowInstantaneous" "You moved too slowly"
            [("speed", (1/2 : ℝ))]] := by
  norm_num [speedValidatorExample, InstantaneousSpeedValidator.run,
    InstantaneousSpeedValidator.update_xyt, SpeedMonitor.update_xyt,
    SpeedMonitor.push_sample, SpeedMonitor.pushDist, SpeedMonitor.validate_time,
    SpeedMonitor.prev_time, SpeedMonitor.remove_recent_points_older_than,
    SpeedMonitor.time_in_trial, SpeedMonitor.last_calculation_interval,
    SpeedMonitor.yspeed, SpeedMonitor.xspeed, SpeedMonitor.xyspeed, freshMonitor,
    Except.map, Option.map, Option.bind, List.enum, List.enumFrom, List.filter,
    List.getLast?]

/-- Claim C9: constructing an `InstantaneousSpeedValidator` without an
explicit `movement_monitor` always raises: the constructor calls
`SpeedMonitor(calculation_interval)` with one positional argument while
`SpeedMonitor.__init__` requires two, a `TypeError` for every choice of
the other constructor arguments. -/
theorem default_construction_always_raises (axis : ValidationAxis) (enabled : Bool)
    (min_speed max_speed : Option ℚ) (grace_period calculation_interval : ℚ) :
    InstantaneousSpeedValidator.init axis enabled min_speed max_speed grace_period
      calculation_interval none = Except.error PyErr.typeError := rfl

/-- Claim C7: on an enabled validator, an update whose resulting window
`time_in_trial` is at most the grace period never produces a `Fail`
verdict; a `Fail` verdict requires `time_in_trial` strictly above the
grace period and an available `last_calculation_interval`. -/
theorem grace_period_suppresses_failures (v : InstantaneousSpeedValidator) (x y t : ℚ)
    (r : InstantaneousSpeedValidator × Verdict)
    (henb : v.enabled = true)
    (hupd : v.update_xyt x y t = Except.ok r) :
    ((∀ tit, r.1.speed_monitor.time_in_trial = some tit → tit ≤ v.grace_period) →
      r.2 = Verdict.pass) ∧
    (∀ code msg args, r.2 = Verdict.fail code msg args →
      (∃ tit, r.1.speed_monitor.time_in_trial = some tit ∧ v.grace_period < tit) ∧
      (∃ iv, r.1.speed_monitor.last_calculation_interval = Except.ok (some iv))) := by
  unfold InstantaneousSpeedValidator.update_xyt at hupd
  rw [henb] at hupd
  simp only [Bool.true_eq_false, if_false] at hupd
  cases hsm : v.speed_monitor.update_xyt x y t with
  | error e =>
    rw [hsm] at hupd
    cases hupd
  | ok sm =>
    rw [hsm] at hupd
    dsimp only at hupd
    cases htit : sm.time_in_trial with
    | none =>
      rw [htit] at hupd
      injection hupd with hupd
      subst hupd
      refine ⟨fun _ => rfl, ?_⟩
      intro code msg args hfail
      cases hfail
    | some tit =>
      rw [htit] at hupd
      dsimp only at hupd
      by_cases hg : tit > v.grace_period
      · rw [if_pos hg] at hupd
        cases hlci : sm.last_calculation_interval with
        | error e =>
          rw [hlci] at hupd
          cases hupd
        | ok o =>
          rw [hlci] at hupd
          cases o with
          | none =>
            injection hupd with hupd
            subst hupd
            refine ⟨fun _ => rfl, ?_⟩
            intro code msg args hfail
            cases hfail
          | some iv =>
            cases hsp : (match v.axis with
                | ValidationAxis.x =>
                  sm.xspeed.map (fun o : Option ℚ => o.map (fun q => (q : ℝ)))
                | ValidationAxis.y =>
                  sm.yspeed.map (fun o : Option ℚ => o.map (fun q => (q : ℝ)))
                | ValidationAxis.xy => sm.xyspeed) with
            | error e =>
              rw [hsp] at hupd
              cases hupd
            | ok o2 =>
              rw [hsp] at hupd
              cases o2 with
              | none =>
                cases hupd
              | some speed =>
                dsimp only at hupd
                constructor
                · intro hall
                  exfalso
                  have h1 := hall tit (by
                    have : r.1.speed_monitor = sm := by
                      split_ifs at hupd <;>
                        · injection hupd with hupd
                          subst hupd
                          rfl
                    rw [this, htit])
                  linarith
                · intro code msg args hfail
                  have hmon : r.1.speed_monitor = sm := by
                    split_ifs at hupd <;>
                      · injection hupd with hupd
                        subst hupd
                        rfl
                  rw [hmon, htit]
                  exact ⟨⟨tit, rfl, hg⟩, ⟨iv, by rw [hlci]⟩⟩
      · rw [if_neg hg] at hupd
        injection hupd with hupd
        subst hupd
        refine ⟨fun _ => rfl, ?_⟩
        intro code msg args hfail
        cases hfail

/-- Witness for C2: two pushes with `calculation_interval = 1`; the second
push (at time 2) evicts the first sample, which becomes the pre-window
sample and the single (newest) entry of the evicted list. -/
theorem sliding_window_invariant_witness :
    ((freshMonitor 1 1 none).runEvicted [] [(0, 0, 0), (0, 0, 2)]).map
        (fun r => (r.1.pre_recent_point, r.2.getLast?))
      = Except.ok ((some ⟨0, 0, 0, 0⟩ : Option Sample), (some ⟨0, 0, 0, 0⟩ : Option Sample)) := by
  have hev : ((freshMonitor 1 1 none).runEvicted [] [(0, 0, 0), (0, 0, 2)]).map
      (fun r => r.2) = Except.ok [(⟨0, 0, 0, 0⟩ : Sample)] := by
    norm_num [SpeedMonitor.runEvicted, SpeedMonitor.update_xyt, SpeedMonitor.push_sample,
      SpeedMonitor.pushDist, SpeedMonitor.validate_time, SpeedMonitor.prev_time,
      SpeedMonitor.remove_recent_points_older_than, SpeedMonitor.evicted_by, freshMonitor,
      Except.map, List.enum, List.enumFrom, List.filter, List.getLast?]
  rcases hr : (freshMonitor 1 1 none).runEvicted [] [(0, 0, 0), (0, 0, 2)] with e | mev
  · rw [hr] at hev
    simp [Except.map] at hev
  · obtain ⟨m, ev⟩ := mev
    rw [hr] at hev
    simp only [Except.map] at hev
    injection hev with hev
    have h := sliding_window_invariant 1 1 none [(0, 0, 0), (0, 0, 2)] m ev
      (by norm_num [List.chain'_cons, List.chain'_singleton]) hr
    simp only [Except.map]
    subst hev
    rw [h.2.2.2.1]
    rfl

/-- Witness for C4: pushing (0,0) then (3,4) one second later gives
`xspeed = 3`, `yspeed = 4` and `xyspeed = 5`, and the theorem yields
`|3| ≤ 5` and `|4| ≤ 5`. -/
theorem xyspeed_dominates_witness :
    ((freshMonitor 1 0 none).runEvicted [] [(0, 0, 0), (3, 4, 1)]).map (fun r => r.1.xspeed)
      = Except.ok (Except.ok (some 3)) ∧
    |((3 : ℚ) : ℝ)| ≤ (5 : ℝ) ∧ |((4 : ℚ) : ℝ)| ≤ (5 : ℝ) := by
  have hx : ((freshMonitor 1 0 none).runEvicted [] [(0, 0, 0), (3, 4, 1)]).map
      (fun r => r.1.xspeed) = Except.ok (Except.ok (some 3)) := by
    norm_num [SpeedMonitor.runEvicted, SpeedMonitor.update_xyt, SpeedMonitor.push_sample,
      SpeedMonitor.pushDist, SpeedMonitor.validate_time, SpeedMonitor.prev_time,
      SpeedMonitor.remove_recent_points_older_than, SpeedMonitor.evicted_by, freshMonitor,
      SpeedMonitor.xspeed, SpeedMonitor.last_calculation_interval,
      Except.map, List.enum, List.enumFrom, List.filter, List.getLast?]
  have hy : ((freshMonitor 1 0 none).runEvicted [] [(0, 0, 0), (3, 4, 1)]).map
      (fun r => r.1.yspeed) = Except.ok (Except.ok (some 4)) := by
    norm_num [SpeedMonitor.runEvicted, SpeedMonitor.update_xyt, SpeedMonitor.push_sample,
      SpeedMonitor.pushDist, SpeedMonitor.validate_time, SpeedMonitor.prev_time,
      SpeedMonitor.remove_recent_points_older_than, SpeedMonitor.evicted_by, freshMonitor,
      SpeedMonitor.yspeed, SpeedMonitor.last_calculation_interval,
      Except.map, List.enum, List.enumFrom, List.filter, List.getLast?]
  have hxy : ((freshMonitor 1 0 none).runEvicted [] [(0, 0, 0), (3, 4, 1)]).map
      (fun r => r.1.xyspeed) = Except.ok (Except.ok (some 5)) := by
    have h5 : dist2 0 0 3 4 = 5 := by
      unfold dist2
      rw [show (((3 : ℚ) - 0 : ℚ) : ℝ) ^ 2 + (((4 : ℚ) - 0 : ℚ) : ℝ) ^ 2 = 5 ^ 2 by norm_num]
      exact Real.sqrt_sq (by norm_num)
    norm_num [SpeedMonitor.runEvicted, SpeedMonitor.update_xyt, SpeedMonitor.push_sample,
      SpeedMonitor.pushDist, SpeedMonitor.validate_time, SpeedMonitor.prev_time,
      SpeedMonitor.remove_recent_points_older_than, SpeedMonitor.evicted_by, freshMonitor,
      SpeedMonitor.xyspeed, SpeedMonitor.last_calculation_interval,
      Except.map, List.enum, List.enumFrom, List.filter, List.getLast?, h5]
  refine ⟨hx, ?_⟩
  rcases hr : (freshMonitor 1 0 none).runEvicted [] [(0, 0, 0), (3, 4, 1)] with e | mev
  · rw [hr] at hx
    simp [Except.map] at hx
  · obtain ⟨m, ev⟩ := mev
    rw [hr] at hx hy hxy
    simp only [Except.map] at hx hy hxy
    injection hx with hx
    injection hy with hy
    injection hxy with hxy
    have h := xyspeed_dominates 1 0 none [(0, 0, 0), (3, 4, 1)] m ev 3 4 5 hr hx hy hxy
    exact h

/-- Witness for C8: a single push: no eviction has occurred, the axis and
interval queries return `None`, and `time_in_trial` is already defined. -/
theorem queries_require_eviction_witness :
    ((freshMonitor 1 1 none).runEvicted [] [(0, 0, 0)]).map
        (fun r => r.1.xspeed) = Except.ok (Except.ok (none : Option ℚ)) ∧
    ((freshMonitor 1 1 none).runEvicted [] [(0, 0, 0)]).map
        (fun r => r.1.time_in_trial) = Except.ok (some 0 : Option ℚ) := by
  have hev : ((freshMonitor 1 1 none).runEvicted [] [(0, 0, 0)]).map
      (fun r => r.2) = Except.ok ([] : List Sample) := by
    norm_num [SpeedMonitor.runEvicted, SpeedMonitor.update_xyt, SpeedMonitor.push_sample,
      SpeedMonitor.pushDist, SpeedMonitor.validate_time, SpeedMonitor.prev_time,
      SpeedMonitor.remove_recent_points_older_than, SpeedMonitor.evicted_by, freshMonitor,
      Except.map, List.enum, List.enumFrom, List.filter, List.getLast?]
  have htit : ((freshMonitor 1 1 none).runEvicted [] [(0, 0, 0)]).map
      (fun r => r.1.time_in_trial) = Except.ok (some 0 : Option ℚ) := by
    norm_num [SpeedMonitor.runEvicted, SpeedMonitor.update_xyt, SpeedMonitor.push_sample,
      SpeedMonitor.pushDist, SpeedMonitor.validate_time, SpeedMonitor.prev_time,
      SpeedMonitor.remove_recent_points_older_than, SpeedMonitor.evicted_by, freshMonitor,
      SpeedMonitor.time_in_trial, Except.map, List.enum, List.enumFrom, List.filter,
      List.getLast?]
  refine ⟨?_, htit⟩
  rcases hr : (freshMonitor 1 1 none).runEvicted [] [(0, 0, 0)] with e | mev
  · rw [hr] at hev
    simp [Except.map] at hev
  · obtain ⟨m, ev⟩ := mev
    rw [hr] at hev
    simp only [Except.map] at hev
    injection hev with hev
    have h := queries_require_eviction 1 1 none [(0, 0, 0)] m ev hr
    subst hev
    simp only [Except.map]
    rw [(h.1 rfl).1]

/-- Witness for C7: with `grace_period = 2`, a first sample at time 2 has
`time_in_trial = 0 ≤ 2`, so the update passes even though the speed cannot
be assessed as fast enough. -/
theorem grace_period_suppresses_failures_witness :
    ((speedValidatorExample 2).update_xyt 0 1 2).map Prod.snd = Except.ok Verdict.pass := by
  have hm : ((speedValidatorExample 2).update_xyt 0 1 2).map
      (fun r => r.1.speed_monitor.time_in_trial) = Except.ok (some 0 : Option ℚ) := by
    norm_num [speedValidatorExample, InstantaneousSpeedValidator.update_xyt,
      SpeedMonitor.update_xyt, SpeedMonitor.push_sample, SpeedMonitor.pushDist,
      SpeedMonitor.validate_time, SpeedMonitor.prev_time,
      SpeedMonitor.remove_recent_points_older_than, SpeedMonitor.time_in_trial,
      SpeedMonitor.last_calculation_interval, SpeedMonitor.yspeed, freshMonitor,
      Except.map, Option.map, Option.bind, List.enum, List.enumFrom, List.filter,
      List.getLast?]
  rcases hr : (speedValidatorExample 2).update_xyt 0 1 2 with e | r
  · rw [hr] at hm
    simp [Except.map] at hm
  · rw [hr] at hm
    simp only [Except.map] at hm
    injection hm with hm
    have hg :=
      (grace_period_suppresses_failures (speedValidatorExample 2) 0 1 2 r rfl hr).1
    have hpass : r.2 = Verdict.pass := by
      refine hg ?_
      intro tit htit
      rw [hm] at htit
      injection htit with h
      subst h
      norm_num [speedValidatorExample]
    simp only [Except.map]
    rw [hpass]
